import Mathlib

/-!
Shallow embedding of the lighthouse HTTP API reward computations:
  beacon_node/http_api/src/attestation_rewards.rs  (compute_attestation_rewards)
  beacon_node/http_api/src/sync_committee_rewards.rs (compute_sync_committee_rewards)

External collaborators (beacon chain state retrieval, the participation cache
constructor, the base-reward protocol formulas, the sync-aggregate reward
function and the validator index lookup) are represented as fields of a
request context: each field holds the value or failure that the external call
would return for the fixed state snapshot of one request.  The code under
verification is everything the two Rust functions do with those results.

Machine integers: balances and rewards are u64 in the source, manipulated
through the SafeArith crate (checked multiply and divide); they are modelled
as Nat with explicit bound checks against 2 ^ 64.  Rust casts between u64,
i64 and i128 are modelled explicitly on Int.
-/

/-- 2 ^ 64, the number of values of a u64. -/
def U64_SIZE : Nat := 2 ^ 64

/-- 2 ^ 63, the magnitude of the smallest i64. -/
def I64_MIN_ABS : Nat := 2 ^ 63

/-- SafeArith safe_mul on u64: the product, or failure on overflow. -/
def safe_mul (a b : Nat) : Option Nat :=
  if a * b < U64_SIZE then some (a * b) else none

/-- SafeArith safe_div on u64: truncating division, failure on a zero divisor. -/
def safe_div (a b : Nat) : Option Nat :=
  if b = 0 then none else some (a / b)

/-- Rust `as i64` cast applied to a u64 value (two complement reinterpretation). -/
def u64_to_i64 (n : Nat) : Int :=
  if n % U64_SIZE < I64_MIN_ABS then ((n % U64_SIZE : Nat) : Int)
  else ((n % U64_SIZE : Nat) : Int) - (U64_SIZE : Int)

/-- Rust `as u64` cast applied to a signed (i128) value: wrap modulo 2 ^ 64. -/
def int_to_u64 (x : Int) : Nat :=
  (x % (U64_SIZE : Int)).toNat

/-- Wrap an integer into the i64 range, as Rust wrapping i64 arithmetic does. -/
def i64_wrap (x : Int) : Int :=
  (x + (I64_MIN_ABS : Int)) % (U64_SIZE : Int) - (I64_MIN_ABS : Int)

/-- The warp rejections the two handlers build (format! argument parts elided,
only the static message prefix is kept). -/
inductive Rejection where
  | notFound (msg : String)
  | serverError (msg : String)
  | badRequest (msg : String)
  | panicked
deriving DecidableEq, Repr

/-- Modelled from the spec: WEIGHT_DENOMINATOR is the fixed protocol
denominator that the per-flag weights (together with the proposer weight) sum
to; the constant lives in the types crate (types::consts::altair), outside the
shown source, with protocol value 64. -/
def WEIGHT_DENOMINATOR : Nat := 64

/-- Modelled from the spec: the participation flag indices in the order
(source, target, head) iterated at line 49 of attestation_rewards.rs; the
constants TIMELY_SOURCE_FLAG_INDEX, TIMELY_TARGET_FLAG_INDEX and
TIMELY_HEAD_FLAG_INDEX live in the types crate, with protocol values 0, 1, 2. -/
def flag_indices : List Nat := [0, 1, 2]

/-- Result of participation_cache.get_unslashed_participating_indices for one
flag at the previous epoch.  total_balance is the (fallible) result of the
.total_balance() call; contains is the membership predicate of the set.  Note
that the source code under verification never consults the membership
predicate: only .total_balance() is read (table construction, line 57) and
.is_ok() of the set lookup itself (line 109). -/
structure UnslashedSet where
  total_balance : Option Nat
  contains : Nat → Bool

/-- Context of one attestation-rewards request: the state snapshot, chain spec
and participation cache, reduced to the exact values the function body reads.
State and cache retrieval (lines 24-38) have already succeeded; every Option
field models a fallible external call, with none standing for its Err. -/
structure AttCtx where
  effective_balance_increment : Nat
  current_epoch_total_active_balance : Nat
  base_reward_per_increment : Option Nat
  get_flag_weight : Nat → Option Nat
  get_unslashed_participating_indices : Nat → Option UnslashedSet
  get_base_reward : Nat → Nat → Option Nat
  is_in_inactivity_leak : Bool
  is_eligible_validator : Nat → Option Bool
  eligible_validator_indices : List Nat

/-- Inner loop of the ideal-reward table construction (lines 71-93): one
table entry per effective-balance bucket of the given flag. -/
def bucket_loop (ctx : AttCtx) (weight unslashed_participating_increments
    active_increments base_reward_per_increment flag : Nat) :
    List Nat → Except Rejection (List ((Nat × Nat) × Nat))
  | [] => Except.ok []
  | b :: rest =>
    match ctx.get_base_reward b base_reward_per_increment with
    | none => Except.error (Rejection.notFound ("Unable to get base_reward!"))
    | some base_reward =>
      match (safe_mul base_reward weight).bind
          (fun x => safe_mul x unslashed_participating_increments) with
      | none => Except.error
          (Rejection.serverError ("Unable to calculate reward numerator"))
      | some reward_numerator =>
        match (safe_div reward_numerator active_increments).bind
            (fun x => safe_div x WEIGHT_DENOMINATOR) with
        | none => Except.error
            (Rejection.serverError ("Unable to calculate reward"))
        | some reward =>
          match bucket_loop ctx weight unslashed_participating_increments
              active_increments base_reward_per_increment flag rest with
          | Except.error e => Except.error e
          | Except.ok rest_entries =>
            Except.ok
              ((if !ctx.is_in_inactivity_leak then ((flag, b), reward)
                else ((flag, b), 0)) :: rest_entries)

/-- One iteration of the flag loop (lines 49-94): the per-flag aggregates and
then the 33 bucket entries (0..=32) of that flag. -/
def flag_table (ctx : AttCtx) (flag : Nat) :
    Except Rejection (List ((Nat × Nat) × Nat)) :=
  match ctx.get_flag_weight flag with
  | none => Except.error (Rejection.notFound ("Unable to get weight!"))
  | some weight =>
    match ctx.get_unslashed_participating_indices flag with
    | none => Except.error
        (Rejection.notFound ("Unable to get unslashed_participating_indices!"))
    | some unslashed_participating_indices =>
      match unslashed_participating_indices.total_balance with
      | none => Except.error
          (Rejection.notFound ("Unable to get unslashed_participating_balance!"))
      | some unslashed_participating_balance =>
        match safe_div unslashed_participating_balance
            ctx.effective_balance_increment with
        | none => Except.error
            (Rejection.notFound ("Unable to get unslashed_participating_increments!"))
        | some unslashed_participating_increments =>
          match safe_div ctx.current_epoch_total_active_balance
              ctx.effective_balance_increment with
          | none => Except.error
              (Rejection.notFound ("Unable to get active_increments!"))
          | some active_increments =>
            match ctx.base_reward_per_increment with
            | none => Except.error
                (Rejection.notFound ("Unable to get base_reward_per_increment!"))
            | some base_reward_per_increment =>
              bucket_loop ctx weight unslashed_participating_increments
                active_increments base_reward_per_increment flag (List.range 33)

/-- The flag loop over [TIMELY_SOURCE_FLAG_INDEX, TIMELY_TARGET_FLAG_INDEX,
TIMELY_HEAD_FLAG_INDEX]. -/
def flags_loop (ctx : AttCtx) :
    List Nat → Except Rejection (List ((Nat × Nat) × Nat))
  | [] => Except.ok []
  | f :: rest =>
    match flag_table ctx f with
    | Except.error e => Except.error e
    | Except.ok t =>
      match flags_loop ctx rest with
      | Except.error e => Except.error e
      | Except.ok ts => Except.ok (t ++ ts)

/-- The complete ideal_rewards_hashmap of lines 42-94, as an association list
keyed by (flag index, effective balance bucket); all 99 keys are distinct, so
the HashMap inserts amount to appending. -/
def ideal_rewards_hashmap (ctx : AttCtx) :
    Except Rejection (List ((Nat × Nat) × Nat)) :=
  flags_loop ctx flag_indices

/-- HashMap::get on the association list. -/
def table_get? (tbl : List ((Nat × Nat) × Nat)) (k : Nat × Nat) : Option Nat :=
  (tbl.find? (fun kv => kv.1 == k)).map (fun kv => kv.2)

/-- The per-validator loop of lines 101-117.  The names flag_index, weight,
base_reward and effective_balance_eth inside the loop body refer to the outer
bindings of lines 44-47 (the identically named bindings inside the flag loop
are new bindings scoped to that loop in Rust), so all four are 0 here. -/
def actual_rewards_loop (ctx : AttCtx) (tbl : List ((Nat × Nat) × Nat)) :
    List Nat → Except Rejection (List (Nat × Nat))
  | [] => Except.ok []
  | validator_index :: rest =>
    match ctx.is_eligible_validator validator_index with
    | none => Except.error (Rejection.serverError ("Unable to get eligible"))
    | some eligible =>
      let flag_index : Nat := 0
      let weight : Nat := 0
      let base_reward : Nat := 0
      let effective_balance_eth : Nat := 0
      let total_reward : Nat :=
        if !eligible then 0
        else
          let voted_correctly :=
            (ctx.get_unslashed_participating_indices flag_index).isSome
          if voted_correctly then
            (table_get? tbl (flag_index, effective_balance_eth)).getD 0
          else
            int_to_u64 (Int.tdiv ((-(u64_to_i64 base_reward)) * (weight : Int))
              (WEIGHT_DENOMINATOR : Int))
      match actual_rewards_loop ctx tbl rest with
      | Except.error e => Except.error e
      | Except.ok rest_rewards =>
        Except.ok ((validator_index, total_reward) :: rest_rewards)

/-- eth2 response row: one ideal-reward table entry (lines 120-127). -/
structure IdealAttestationRewards where
  effective_balance : Nat
  head : Nat
  target : Nat
  source : Nat
deriving DecidableEq, Repr

/-- eth2 response row: one per-validator total (lines 130-138). -/
structure TotalAttestationRewards where
  validator_index : Nat
  head : Int
  target : Int
  source : Int
  inclusion_delay : Nat
deriving DecidableEq, Repr

/-- eth2 response body AttestationRewardsTBD (lines 140-145). -/
structure AttestationRewardsTBD where
  execution_optimistic : Bool
  finalized : Bool
  ideal_rewards : List IdealAttestationRewards
  total_rewards : List TotalAttestationRewards
deriving DecidableEq, Repr

/-- Lines 119-145: shape the hashmap and the rewards vector into the response.
The HashMap iteration order is unspecified in Rust; the association list is
iterated in insertion order, which is one of the possible orders. -/
def assemble_attestation_response (tbl : List ((Nat × Nat) × Nat))
    (rewards : List (Nat × Nat)) : AttestationRewardsTBD :=
  { execution_optimistic := false
    finalized := false
    ideal_rewards := tbl.map (fun kv =>
      { effective_balance := kv.1.2
        head := kv.2
        target := 0
        source := 0 })
    total_rewards := rewards.map (fun vr =>
      { validator_index := vr.1
        head := u64_to_i64 vr.2
        target := 0
        source := 0
        inclusion_delay := 0 }) }

/-- compute_attestation_rewards, from the successful construction of the
participation cache (line 38) to the response (line 145). -/
def compute_attestation_rewards (ctx : AttCtx) :
    Except Rejection AttestationRewardsTBD :=
  match ideal_rewards_hashmap ctx with
  | Except.error e => Except.error e
  | Except.ok tbl =>
    match actual_rewards_loop ctx tbl ctx.eligible_validator_indices with
    | Except.error e => Except.error e
    | Except.ok rewards => Except.ok (assemble_attestation_response tbl rewards)

/-- The ideal_rewards rows of a successful response ([] on failure). -/
def ideal_entries (ctx : AttCtx) : List IdealAttestationRewards :=
  match compute_attestation_rewards ctx with
  | Except.ok r => r.ideal_rewards
  | Except.error _ => []

/-- The total_rewards rows of a successful response ([] on failure). -/
def total_entries (ctx : AttCtx) : List TotalAttestationRewards :=
  match compute_attestation_rewards ctx with
  | Except.ok r => r.total_rewards
  | Except.error _ => []

/-- Boolean success test for Except. -/
def except_is_ok {ε α : Type} : Except ε α → Bool
  | Except.ok _ => true
  | Except.error _ => false

/-- eth2 ValidatorId filter element: a public key or a validator index.
Public keys are modelled as abstract Nat identifiers. -/
inductive ValidatorId where
  | pubkey (pk : Nat)
  | index (i : Nat)
deriving DecidableEq, Repr

/-- eth2 response row SyncCommitteeAttestationReward (lines 92-96 of
sync_committee_rewards.rs): validator_index is u64, reward is i64. -/
structure SyncCommitteeAttestationReward where
  validator_index : Nat
  reward : Int
deriving DecidableEq, Repr

/-- eth2 response body SyncCommitteeAttestationRewards (lines 102-106). -/
structure SyncCommitteeAttestationRewards where
  execution_optimistic : Option Bool
  finalized : Option Bool
  data : Option (List SyncCommitteeAttestationReward)
deriving DecidableEq, Repr

/-- Context of one sync-committee-rewards request: the block and the state it
commits to, reduced to the values the function body reads.  Block and state
retrieval (lines 19-37) have already succeeded; each Option field models a
fallible external call, with none standing for its Err.
sync_aggregate_bits is the bit sequence of the sync aggregate of the block;
compute_sync_aggregate_rewards is the (participant, proposer) reward pair;
current_sync_committee_pubkeys is the pubkeys list of the committee;
get_validator_index is the state index lookup, returning
Result of Option of usize in the source (none = Err, some none = Ok(None),
some (some i) = Ok(Some(i))). -/
structure SyncCtx where
  sync_aggregate_bits : Option (List Bool)
  compute_sync_aggregate_rewards : Option (Nat × Nat)
  current_sync_committee_pubkeys : Option (List Nat)
  get_validator_index : Nat → Option (Option Nat)
  validators : List ValidatorId

/-- Lines 67-76: pair each committee pubkey with its participation bit and
resolve it to a validator index.  An Err from the lookup is replaced by
Some(0) (line 73); the following .unwrap() panics on Ok(None), modelled as the
panicked rejection aborting the request. -/
def resolve_triples (lookup_index : Nat → Option (Option Nat)) :
    List (Nat × Bool) → Except Rejection (List (Nat × Nat × Bool))
  | [] => Except.ok []
  | (pk, b) :: rest =>
    match (match lookup_index pk with
           | some i => i
           | none => some 0) with
    | none => Except.error Rejection.panicked
    | some i =>
      match resolve_triples lookup_index rest with
      | Except.error e => Except.error e
      | Except.ok ts => Except.ok ((pk, i, b) :: ts)

/-- Line 77-90: the validator filter predicate applied to each triple. -/
def sync_filter_pred (validators : List ValidatorId)
    (t : Nat × Nat × Bool) : Bool :=
  validators.isEmpty ||
    validators.any (fun v =>
      match v with
      | ValidatorId.pubkey p => t.1 == p
      | ValidatorId.index j => t.2.1 == j)

/-- Lines 91-97: build one response row from a kept triple: the resolved
index, and plus or minus the flat participant reward by participation bit. -/
def sync_reward_row (participant_reward_value : Nat)
    (t : Nat × Nat × Bool) : SyncCommitteeAttestationReward :=
  { validator_index := t.2.1
    reward :=
      if t.2.2 then u64_to_i64 participant_reward_value
      else i64_wrap (u64_to_i64 participant_reward_value * -1) }

/-- compute_sync_committee_rewards, from the retrieved block and state to the
response (lines 25-107). -/
def compute_sync_committee_rewards (ctx : SyncCtx) :
    Except Rejection SyncCommitteeAttestationRewards :=
  match ctx.sync_aggregate_bits with
  | none => Except.error (Rejection.badRequest ("Unable to get sync aggregate"))
  | some bits =>
    match ctx.compute_sync_aggregate_rewards with
    | none => Except.error
        (Rejection.badRequest ("Unable to get sync aggregate rewards at state root"))
    | some rewards_pair =>
      let participant_reward_value := rewards_pair.1
      match ctx.current_sync_committee_pubkeys with
      | none => Except.error (Rejection.badRequest ("Unable to get participants"))
      | some current_sync_committee =>
        if current_sync_committee.isEmpty then
          Except.ok
            { execution_optimistic := none
              finalized := none
              data := none }
        else
          match resolve_triples ctx.get_validator_index
              (current_sync_committee.zip bits) with
          | Except.error e => Except.error e
          | Except.ok triples =>
            Except.ok
              { execution_optimistic := none
                finalized := none
                data := some
                  ((triples.filter (sync_filter_pred ctx.validators)).map
                    (sync_reward_row participant_reward_value)) }

/-- The reward rows of a successful response with a nonempty committee
([] when the request fails or the committee is empty). -/
def sync_entries (ctx : SyncCtx) : List SyncCommitteeAttestationReward :=
  match compute_sync_committee_rewards ctx with
  | Except.ok r =>
    match r.data with
    | some l => l
    | none => []
  | Except.error _ => []

/-- A small concrete attestation request context used by the witnesses: one
ETH of effective-balance increment, total active balance 16, flat aggregates.
With these externals the ideal table value at (flag f, bucket b) evaluates to
32 * (b + 1) * weight f, e.g. 448 at (source, 0). -/
def base_att_ctx : AttCtx :=
  { effective_balance_increment := 1
    current_epoch_total_active_balance := 16
    base_reward_per_increment := some 1
    get_flag_weight := fun f =>
      if f = 0 then some 14 else if f = 1 then some 26
      else if f = 2 then some 14 else none
    get_unslashed_participating_indices := fun _ =>
      some { total_balance := some 8, contains := fun _ => false }
    get_base_reward := fun b p => some (4096 * (b + 1) * p)
    is_in_inactivity_leak := false
    is_eligible_validator := fun _ => some true
    eligible_validator_indices := [] }

def ctx_c1 : AttCtx :=
  { base_att_ctx with eligible_validator_indices := [7] }

def ctx_c4 : AttCtx :=
  { base_att_ctx with
    eligible_validator_indices := [3]
    get_unslashed_participating_indices := fun _ =>
      some { total_balance := some 8, contains := fun _ => true } }

def ctx_c5 : AttCtx :=
  { base_att_ctx with
    is_in_inactivity_leak := true
    eligible_validator_indices := [2] }

def ctx_c7 : AttCtx :=
  { base_att_ctx with current_epoch_total_active_balance := 0 }

def ctx_c8 : AttCtx :=
  { base_att_ctx with
    eligible_validator_indices := [4]
    is_eligible_validator := fun v => some (v != 4) }

def ctx_c10 : AttCtx :=
  { base_att_ctx with eligible_validator_indices := [2] }

def ctx_c2 : SyncCtx :=
  { sync_aggregate_bits := some [true]
    compute_sync_aggregate_rewards := some (10, 3)
    current_sync_committee_pubkeys := some [11]
    get_validator_index := fun _ => none
    validators := [] }

def ctx_c3 : SyncCtx :=
  { sync_aggregate_bits := some [true]
    compute_sync_aggregate_rewards := some (10, 3)
    current_sync_committee_pubkeys := some [21, 22]
    get_validator_index := fun pk =>
      if pk = 21 then some (some 5) else if pk = 22 then some (some 6) else none
    validators := [] }

def ctx_c6 : SyncCtx :=
  { sync_aggregate_bits := some [true, false]
    compute_sync_aggregate_rewards := some (10, 3)
    current_sync_committee_pubkeys := some [41, 42]
    get_validator_index := fun pk =>
      if pk = 41 then some (some 5) else if pk = 42 then some (some 9) else none
    validators := [] }

def ctx_c9 : SyncCtx :=
  { sync_aggregate_bits := some [true, true]
    compute_sync_aggregate_rewards := some (10, 3)
    current_sync_committee_pubkeys := some [31, 32]
    get_validator_index := fun pk =>
      if pk = 31 then some (some 5) else if pk = 32 then some (some 7) else none
    validators := [ValidatorId.index 7] }

/-!  Helper lemmas about the numeric casts and about lists. -/

lemma u64_to_i64_of_lt (v : Nat) (h : v < I64_MIN_ABS) :
    u64_to_i64 v = (v : Int) := by
  have h2 : v < U64_SIZE := lt_of_lt_of_le h (by norm_num [I64_MIN_ABS, U64_SIZE])
  unfold u64_to_i64
  rw [Nat.mod_eq_of_lt h2, if_pos h]

lemma u64_to_i64_zero : u64_to_i64 0 = 0 := by
  have := u64_to_i64_of_lt 0 (by norm_num [I64_MIN_ABS])
  simpa using this

lemma i64_wrap_neg_of_lt (v : Nat) (h : v < I64_MIN_ABS) :
    i64_wrap ((v : Int) * -1) = -(v : Int) := by
  have hv : (v : Int) < (I64_MIN_ABS : Int) := by exact_mod_cast h
  have hnn : (0 : Int) ≤ (v : Int) := Int.natCast_nonneg v
  have hIU : (I64_MIN_ABS : Int) < (U64_SIZE : Int) := by
    norm_num [I64_MIN_ABS, U64_SIZE]
  have h1 : (0 : Int) ≤ (v : Int) * -1 + (I64_MIN_ABS : Int) := by linarith
  have h2 : (v : Int) * -1 + (I64_MIN_ABS : Int) < (U64_SIZE : Int) := by linarith
  unfold i64_wrap
  rw [Int.emod_eq_of_lt h1 h2]
  ring

lemma list_map_filter {α β : Type} (f : α → β) (p : β → Bool) (l : List α) :
    (l.map f).filter p = (l.filter (fun a => p (f a))).map f := by
  induction l with
  | nil => rfl
  | cons a t ih =>
    simp only [List.map_cons, List.filter_cons]
    cases h : p (f a) <;> simp [h, ih]

lemma list_filter_all {α : Type} (p : α → Bool) (l : List α)
    (h : ∀ a ∈ l, p a = true) : l.filter p = l := by
  induction l with
  | nil => rfl
  | cons a t ih =>
    have ha : p a = true := h a (List.mem_cons_self a t)
    have iht := ih (fun x hx => h x (List.mem_cons_of_mem a hx))
    simp [List.filter_cons, ha, iht]

lemma list_any_map {α β : Type} (f : α → β) (p : β → Bool) (l : List α) :
    (l.map f).any p = l.any (fun a => p (f a)) := by
  induction l with
  | nil => rfl
  | cons a t ih => simp [ih]

lemma list_filter_congr {α : Type} (p q : α → Bool) (l : List α)
    (h : ∀ a ∈ l, p a = q a) : l.filter p = l.filter q := by
  induction l with
  | nil => rfl
  | cons a t ih =>
    have ha := h a (List.mem_cons_self a t)
    have iht := ih (fun x hx => h x (List.mem_cons_of_mem a hx))
    simp [List.filter_cons, ha, iht]

/-!  Structure of the ideal-reward table on successful construction. -/

lemma bucket_loop_ok_elim (ctx : AttCtx)
    (w u a p fl : Nat) :
    ∀ (bs : List Nat) (l : List ((Nat × Nat) × Nat)),
      bucket_loop ctx w u a p fl bs = Except.ok l →
      l.length = bs.length ∧
        (ctx.is_in_inactivity_leak = true → ∀ kv ∈ l, kv.2 = 0) := by
  intro bs
  induction bs with
  | nil =>
    intro l h
    simp only [bucket_loop] at h
    cases h
    exact ⟨rfl, fun _ kv hkv => absurd hkv (List.not_mem_nil kv)⟩
  | cons b rest ih =>
    intro l h
    cases hbr : ctx.get_base_reward b p with
    | none => simp [bucket_loop, hbr] at h
    | some base_reward =>
      cases hrn : (safe_mul base_reward w).bind (fun x => safe_mul x u) with
      | none => simp [bucket_loop, hbr, hrn] at h
      | some reward_numerator =>
        cases hrw : (safe_div reward_numerator a).bind
            (fun x => safe_div x WEIGHT_DENOMINATOR) with
        | none => simp [bucket_loop, hbr, hrn, hrw] at h
        | some reward =>
          cases hrec : bucket_loop ctx w u a p fl rest with
          | error e => simp [bucket_loop, hbr, hrn, hrw, hrec] at h
          | ok rest_entries =>
            have hl : ((if !ctx.is_in_inactivity_leak then ((fl, b), reward)
                else ((fl, b), 0)) :: rest_entries) = l := by
              simpa [bucket_loop, hbr, hrn, hrw, hrec] using h
            obtain ⟨ihl, ihv⟩ := ih rest_entries hrec
            subst hl
            refine ⟨by simp [ihl], ?_⟩
            intro hleak kv hkv
            rcases List.mem_cons.mp hkv with hkv1 | hkv2
            · rw [hkv1, hleak]
              simp
            · exact ihv hleak kv hkv2

lemma flag_table_ok_elim (ctx : AttCtx) (fl : Nat)
    (t : List ((Nat × Nat) × Nat))
    (h : flag_table ctx fl = Except.ok t) :
    t.length = 33 ∧
      (ctx.is_in_inactivity_leak = true → ∀ kv ∈ t, kv.2 = 0) := by
  cases hw : ctx.get_flag_weight fl with
  | none => simp [flag_table, hw] at h
  | some w =>
  cases hs : ctx.get_unslashed_participating_indices fl with
  | none => simp [flag_table, hw, hs] at h
  | some s =>
  cases htb : s.total_balance with
  | none => simp [flag_table, hw, hs, htb] at h
  | some upb =>
  cases hd1 : safe_div upb ctx.effective_balance_increment with
  | none => simp [flag_table, hw, hs, htb, hd1] at h
  | some u =>
  cases hd2 : safe_div ctx.current_epoch_total_active_balance
      ctx.effective_balance_increment with
  | none => simp [flag_table, hw, hs, htb, hd1, hd2] at h
  | some a =>
  cases hp : ctx.base_reward_per_increment with
  | none => simp [flag_table, hw, hs, htb, hd1, hd2, hp] at h
  | some p =>
  have hb : bucket_loop ctx w u a p fl (List.range 33) = Except.ok t := by
    simpa [flag_table, hw, hs, htb, hd1, hd2, hp] using h
  obtain ⟨h1, h2⟩ := bucket_loop_ok_elim ctx w u a p fl (List.range 33) t hb
  exact ⟨by simpa using h1, h2⟩

lemma flags_loop_ok_elim (ctx : AttCtx) :
    ∀ (fs : List Nat) (l : List ((Nat × Nat) × Nat)),
      flags_loop ctx fs = Except.ok l →
      l.length = 33 * fs.length ∧
        (ctx.is_in_inactivity_leak = true → ∀ kv ∈ l, kv.2 = 0) := by
  intro fs
  induction fs with
  | nil =>
    intro l h
    simp only [flags_loop] at h
    cases h
    exact ⟨by simp, fun _ kv hkv => absurd hkv (List.not_mem_nil kv)⟩
  | cons f rest ih =>
    intro l h
    cases hft : flag_table ctx f with
    | error e => simp [flags_loop, hft] at h
    | ok t =>
      cases hfr : flags_loop ctx rest with
      | error e => simp [flags_loop, hft, hfr] at h
      | ok ts =>
        have hl : t ++ ts = l := by simpa [flags_loop, hft, hfr] using h
        obtain ⟨hlen_t, hval_t⟩ := flag_table_ok_elim ctx f t hft
        obtain ⟨hlen_r, hval_r⟩ := ih ts hfr
        subst hl
        constructor
        · simp [List.length_append, hlen_t, hlen_r]
          ring
        · intro hleak kv hkv
          rcases List.mem_append.mp hkv with h1 | h2
          · exact hval_t hleak kv h1
          · exact hval_r hleak kv h2

lemma compute_attestation_ok_elim (ctx : AttCtx) (res : AttestationRewardsTBD)
    (h : compute_attestation_rewards ctx = Except.ok res) :
    ∃ tbl rewards, ideal_rewards_hashmap ctx = Except.ok tbl ∧
      actual_rewards_loop ctx tbl ctx.eligible_validator_indices =
        Except.ok rewards ∧
      res = assemble_attestation_response tbl rewards := by
  cases h1 : ideal_rewards_hashmap ctx with
  | error e => simp [compute_attestation_rewards, h1] at h
  | ok tbl =>
    cases h2 : actual_rewards_loop ctx tbl ctx.eligible_validator_indices with
    | error e => simp [compute_attestation_rewards, h1, h2] at h
    | ok rewards =>
      refine ⟨tbl, rewards, rfl, h2, ?_⟩
      have h3 : assemble_attestation_response tbl rewards = res := by
        simpa [compute_attestation_rewards, h1, h2] using h
      exact h3.symm

lemma actual_rewards_loop_ineligible (ctx : AttCtx)
    (tbl : List ((Nat × Nat) × Nat)) :
    ∀ (vs : List Nat) (rewards : List (Nat × Nat)),
      actual_rewards_loop ctx tbl vs = Except.ok rewards →
      ∀ v r, (v, r) ∈ rewards → ctx.is_eligible_validator v = some false →
      r = 0 := by
  intro vs
  induction vs with
  | nil =>
    intro rewards h v r hm _
    simp only [actual_rewards_loop] at h
    cases h
    simp at hm
  | cons v0 rest ih =>
    intro rewards h v r hm helig
    cases he : ctx.is_eligible_validator v0 with
    | none => simp [actual_rewards_loop, he] at h
    | some eligible =>
      cases hrec : actual_rewards_loop ctx tbl rest with
      | error e => simp [actual_rewards_loop, he, hrec] at h
      | ok rest_rewards =>
        have hl : ((v0,
            if !eligible then 0
            else
              if (ctx.get_unslashed_participating_indices 0).isSome then
                (table_get? tbl (0, 0)).getD 0
              else
                int_to_u64 (Int.tdiv ((-(u64_to_i64 0)) * ((0 : Nat) : Int))
                  (WEIGHT_DENOMINATOR : Int))) :: rest_rewards) = rewards := by
          simpa [actual_rewards_loop, he, hrec] using h
        rw [← hl] at hm
        rcases List.mem_cons.mp hm with hm1 | hm2
        · have hv : v = v0 := congrArg Prod.fst hm1
          rw [hv, he] at helig
          have helig2 : eligible = false := by
            simpa using helig
          have hr := congrArg Prod.snd hm1
          rw [helig2] at hr
          simpa using hr
        · exact ih rest_rewards hrec v r hm2 helig

/-!  Failure of the table construction on zero total active balance. -/

lemma bucket_loop_zero_active_err (ctx : AttCtx) (w u p fl b : Nat)
    (bs : List Nat) :
    except_is_ok (bucket_loop ctx w u 0 p fl (b :: bs)) = false := by
  cases hbr : ctx.get_base_reward b p with
  | none => simp [bucket_loop, hbr, except_is_ok]
  | some br =>
    cases hrn : (safe_mul br w).bind (fun x => safe_mul x u) with
    | none => simp [bucket_loop, hbr, hrn, except_is_ok]
    | some rn =>
      have hdiv : (safe_div rn 0).bind (fun x => safe_div x WEIGHT_DENOMINATOR)
          = none := by simp [safe_div]
      simp [bucket_loop, hbr, hrn, hdiv, except_is_ok]

lemma flag_table_zero_tab_err (ctx : AttCtx) (f : Nat)
    (h : ctx.current_epoch_total_active_balance = 0) :
    except_is_ok (flag_table ctx f) = false := by
  cases hw : ctx.get_flag_weight f with
  | none => simp [flag_table, hw, except_is_ok]
  | some w =>
  cases hs : ctx.get_unslashed_participating_indices f with
  | none => simp [flag_table, hw, hs, except_is_ok]
  | some s =>
  cases htb : s.total_balance with
  | none => simp [flag_table, hw, hs, htb, except_is_ok]
  | some upb =>
  by_cases hinc : ctx.effective_balance_increment = 0
  · have hd1 : safe_div upb ctx.effective_balance_increment = none := by
      simp [safe_div, hinc]
    simp [flag_table, hw, hs, htb, hd1, except_is_ok]
  · cases hd1 : safe_div upb ctx.effective_balance_increment with
    | none => simp [flag_table, hw, hs, htb, hd1, except_is_ok]
    | some u =>
      have hd2 : safe_div ctx.current_epoch_total_active_balance
          ctx.effective_balance_increment = some 0 := by
        simp [safe_div, hinc, h]
      cases hp : ctx.base_reward_per_increment with
      | none => simp [flag_table, hw, hs, htb, hd1, hd2, hp, except_is_ok]
      | some p =>
        simp only [flag_table, hw, hs, htb, hd1, hd2, hp]
        rw [show List.range 33 = 0 :: List.map Nat.succ (List.range 32) from
          List.range_succ_eq_map 32]
        exact bucket_loop_zero_active_err ctx w u p f 0
          (List.map Nat.succ (List.range 32))

/-- Claim C7: if the total active balance is 0, building the ideal-reward
table fails (division by zero on the zero active-increments denominator, or an
earlier failure of one of the aggregate steps) and the whole request returns
an error: no all-zero and no partially populated table is ever produced. -/
theorem zero_active_balance_request_fails (ctx : AttCtx)
    (h : ctx.current_epoch_total_active_balance = 0) :
    except_is_ok (compute_attestation_rewards ctx) = false := by
  have h0 := flag_table_zero_tab_err ctx 0 h
  cases hft : flag_table ctx 0 with
  | ok t => rw [hft] at h0; simp [except_is_ok] at h0
  | error e =>
    simp [compute_attestation_rewards, ideal_rewards_hashmap, flag_indices,
      flags_loop, hft, except_is_ok]

/-- Witness for C7 at a concrete context with zero total active balance. -/
theorem zero_active_balance_request_fails_witness :
    ctx_c7.current_epoch_total_active_balance = 0 ∧
      except_is_ok (compute_attestation_rewards ctx_c7) = false :=
  ⟨rfl, zero_active_balance_request_fails ctx_c7 rfl⟩

/-- Claim C5: when the state is in an inactivity leak for the previous epoch,
every entry of the ideal-reward table of a successful response is exactly 0
(its head, target and source fields are all 0), and the table covers all
3 flags times 33 effective-balance buckets, 99 entries. -/
theorem inactivity_leak_zeroes_ideal_rewards (ctx : AttCtx)
    (hleak : ctx.is_in_inactivity_leak = true)
    (hok : except_is_ok (compute_attestation_rewards ctx) = true) :
    (∀ e ∈ ideal_entries ctx, e.head = 0 ∧ e.target = 0 ∧ e.source = 0) ∧
      (ideal_entries ctx).length = 99 := by
  cases hc : compute_attestation_rewards ctx with
  | error e => rw [hc] at hok; simp [except_is_ok] at hok
  | ok res =>
    obtain ⟨tbl, rewards, h1, h2, h3⟩ := compute_attestation_ok_elim ctx res hc
    obtain ⟨hlen, hval⟩ := flags_loop_ok_elim ctx flag_indices tbl h1
    have hentries : ideal_entries ctx = tbl.map (fun kv =>
        ({ effective_balance := kv.1.2, head := kv.2, target := 0,
           source := 0 } : IdealAttestationRewards)) := by
      simp [ideal_entries, hc, h3, assemble_attestation_response]
    constructor
    · intro e he
      rw [hentries] at he
      obtain ⟨kv, hkv, hfe⟩ := List.mem_map.mp he
      subst hfe
      exact ⟨hval hleak kv hkv, rfl, rfl⟩
    · rw [hentries]
      simp [hlen, flag_indices]

/-- Witness for C5: a concrete leaking context on which the computation
succeeds and every ideal-reward entry is zero. -/
theorem inactivity_leak_zeroes_ideal_rewards_witness :
    ctx_c5.is_in_inactivity_leak = true ∧
      except_is_ok (compute_attestation_rewards ctx_c5) = true ∧
      ((∀ e ∈ ideal_entries ctx_c5, e.head = 0 ∧ e.target = 0 ∧ e.source = 0) ∧
        (ideal_entries ctx_c5).length = 99) :=
  ⟨rfl, by decide,
    inactivity_leak_zeroes_ideal_rewards ctx_c5 rfl (by decide)⟩

/-- Claim C8: any reported row whose validator the state deems ineligible for
the previous epoch carries a zero reward for every flag: its head, target,
source and inclusion_delay fields are all 0, whatever the participation flags
of that validator are. -/
theorem ineligible_validator_reported_zero (ctx : AttCtx)
    (e : TotalAttestationRewards)
    (hmem : e ∈ total_entries ctx)
    (helig : ctx.is_eligible_validator e.validator_index = some false) :
    e.head = 0 ∧ e.target = 0 ∧ e.source = 0 ∧ e.inclusion_delay = 0 := by
  cases hc : compute_attestation_rewards ctx with
  | error e0 => simp [total_entries, hc] at hmem
  | ok res =>
    obtain ⟨tbl, rewards, h1, h2, h3⟩ := compute_attestation_ok_elim ctx res hc
    have hentries : total_entries ctx = rewards.map (fun vr =>
        ({ validator_index := vr.1, head := u64_to_i64 vr.2, target := 0,
           source := 0, inclusion_delay := 0 } : TotalAttestationRewards)) := by
      simp [total_entries, hc, h3, assemble_attestation_response]
    rw [hentries] at hmem
    obtain ⟨vr, hvr, hge⟩ := List.mem_map.mp hmem
    subst hge
    have hr0 : vr.2 = 0 :=
      actual_rewards_loop_ineligible ctx tbl ctx.eligible_validator_indices
        rewards h2 vr.1 vr.2 (by simpa using hvr) helig
    refine ⟨?_, rfl, rfl, rfl⟩
    show u64_to_i64 vr.2 = 0
    rw [hr0, u64_to_i64_zero]

/-- Witness for C8: a concrete context whose only listed validator is deemed
ineligible; its reported row is all zeroes. -/
theorem ineligible_validator_reported_zero_witness :
    (⟨4, 0, 0, 0, 0⟩ : TotalAttestationRewards) ∈ total_entries ctx_c8 ∧
      ctx_c8.is_eligible_validator 4 = some false ∧
      ((⟨4, 0, 0, 0, 0⟩ : TotalAttestationRewards).head = 0 ∧
        (⟨4, 0, 0, 0, 0⟩ : TotalAttestationRewards).target = 0 ∧
        (⟨4, 0, 0, 0, 0⟩ : TotalAttestationRewards).source = 0 ∧
        (⟨4, 0, 0, 0, 0⟩ : TotalAttestationRewards).inclusion_delay = 0) :=
  ⟨by decide, by decide,
    ineligible_validator_reported_zero ctx_c8 ⟨4, 0, 0, 0, 0⟩ (by decide)
      (by decide)⟩

/-- Claim C10: in every successful attestation-rewards response only the head
field can be nonzero: each ideal_rewards row has target = source = 0, and each
total_rewards row has target = source = inclusion_delay = 0 (the source sets
them to literal zeroes when assembling the response). -/
theorem response_only_head_field_nonzero (ctx : AttCtx) :
    (∀ e ∈ ideal_entries ctx, e.target = 0 ∧ e.source = 0) ∧
      (∀ e ∈ total_entries ctx, e.target = 0 ∧ e.source = 0 ∧
        e.inclusion_delay = 0) := by
  cases hc : compute_attestation_rewards ctx with
  | error e0 => simp [ideal_entries, total_entries, hc]
  | ok res =>
    obtain ⟨tbl, rewards, h1, h2, h3⟩ := compute_attestation_ok_elim ctx res hc
    constructor
    · intro e he
      have hentries : ideal_entries ctx = tbl.map (fun kv =>
          ({ effective_balance := kv.1.2, head := kv.2, target := 0,
             source := 0 } : IdealAttestationRewards)) := by
        simp [ideal_entries, hc, h3, assemble_attestation_response]
      rw [hentries] at he
      obtain ⟨kv, _, hfe⟩ := List.mem_map.mp he
      subst hfe
      exact ⟨rfl, rfl⟩
    · intro e he
      have hentries : total_entries ctx = rewards.map (fun vr =>
          ({ validator_index := vr.1, head := u64_to_i64 vr.2, target := 0,
             source := 0, inclusion_delay := 0 } : TotalAttestationRewards)) := by
        simp [total_entries, hc, h3, assemble_attestation_response]
      rw [hentries] at he
      obtain ⟨vr, _, hge⟩ := List.mem_map.mp he
      subst hge
      exact ⟨rfl, rfl, rfl⟩

/-- Witness for C10 at a concrete context: one ideal row and one total row of
the computed response, with their zero fields. -/
theorem response_only_head_field_nonzero_witness :
    (⟨0, 448, 0, 0⟩ : IdealAttestationRewards) ∈ ideal_entries ctx_c10 ∧
      (⟨2, 448, 0, 0, 0⟩ : TotalAttestationRewards) ∈ total_entries ctx_c10 ∧
      ((⟨0, 448, 0, 0⟩ : IdealAttestationRewards).target = 0 ∧
        (⟨0, 448, 0, 0⟩ : IdealAttestationRewards).source = 0) ∧
      ((⟨2, 448, 0, 0, 0⟩ : TotalAttestationRewards).target = 0 ∧
        (⟨2, 448, 0, 0, 0⟩ : TotalAttestationRewards).source = 0 ∧
        (⟨2, 448, 0, 0, 0⟩ : TotalAttestationRewards).inclusion_delay = 0) :=
  ⟨by decide, by decide,
    (response_only_head_field_nonzero ctx_c10).1 ⟨0, 448, 0, 0⟩ (by decide),
    (response_only_head_field_nonzero ctx_c10).2 ⟨2, 448, 0, 0, 0⟩ (by decide)⟩

/-!  Structure of the resolved sync-committee triples. -/

lemma resolve_triples_get? (lookup : Nat → Option (Option Nat)) :
    ∀ (l : List (Nat × Bool)) (ts : List (Nat × Nat × Bool)) (k : Nat)
      (pk : Nat) (b : Bool),
      resolve_triples lookup l = Except.ok ts →
      l.get? k = some (pk, b) →
      ∃ i, ts.get? k = some (pk, i, b) := by
  intro l
  induction l with
  | nil =>
    intro ts k pk b _ hg
    simp at hg
  | cons hd rest ih =>
    intro ts k pk b hres hg
    obtain ⟨pk0, b0⟩ := hd
    cases hlk : (match lookup pk0 with
                 | some i => i
                 | none => some 0) with
    | none => simp [resolve_triples, hlk] at hres
    | some i =>
      cases hrec : resolve_triples lookup rest with
      | error e => simp [resolve_triples, hlk, hrec] at hres
      | ok ts2 =>
        have hts : (pk0, i, b0) :: ts2 = ts := by
          simpa [resolve_triples, hlk, hrec] using hres
        subst hts
        cases k with
        | zero =>
          simp at hg
          obtain ⟨hpk, hb⟩ := hg
          subst hpk
          subst hb
          exact ⟨i, rfl⟩
        | succ k2 =>
          simp only [List.get?_cons_succ] at hg ⊢
          exact ih ts2 k2 pk b hrec hg

/-- Claim C6: every emitted sync-committee reward row carries the signed flat
reward, positive when the corresponding participation bit of the aggregate is
set and negative when it is not: with no validator filter, the row at
position k has reward +value when the k-th zipped bit is true and -value when
it is false (value below 2 ^ 63, so the i64 casts are exact). -/
theorem sync_reward_sign_matches_bit (ctx : SyncCtx) (pks : List Nat)
    (bits : List Bool) (v q k pk : Nat) (b : Bool)
    (e : SyncCommitteeAttestationReward)
    (hval : ctx.validators = [])
    (hp : ctx.current_sync_committee_pubkeys = some pks)
    (hb : ctx.sync_aggregate_bits = some bits)
    (hr : ctx.compute_sync_aggregate_rewards = some (v, q))
    (hlt : v < I64_MIN_ABS)
    (hz : (pks.zip bits).get? k = some (pk, b))
    (he : (sync_entries ctx).get? k = some e) :
    e.reward = if b then (v : Int) else -(v : Int) := by
  cases hres : resolve_triples ctx.get_validator_index (pks.zip bits) with
  | error e2 =>
    have hnil : sync_entries ctx = [] := by
      by_cases hemp : pks.isEmpty
      · simp [sync_entries, compute_sync_committee_rewards, hb, hr, hp, hemp]
      · simp [sync_entries, compute_sync_committee_rewards, hb, hr, hp, hemp,
          hres]
    rw [hnil] at he
    simp at he
  | ok ts =>
    by_cases hemp : pks.isEmpty
    · have hpks : pks = [] := List.isEmpty_iff.mp hemp
      subst hpks
      simp at hz
    · have hfilt : ts.filter (sync_filter_pred ctx.validators) = ts :=
        list_filter_all _ ts (fun t _ => by simp [sync_filter_pred, hval])
      have hentries : sync_entries ctx = ts.map (sync_reward_row v) := by
        simp [sync_entries, compute_sync_committee_rewards, hb, hr, hp, hemp,
          hres, hfilt]
      obtain ⟨i, hts⟩ := resolve_triples_get? ctx.get_validator_index
        (pks.zip bits) ts k pk b hres hz
      rw [hentries, List.get?_map, hts] at he
      simp only [Option.map_some', Option.some.injEq] at he
      subst he
      show (if b then u64_to_i64 v else i64_wrap (u64_to_i64 v * -1)) =
        if b then (v : Int) else -(v : Int)
      rw [u64_to_i64_of_lt v hlt]
      cases b with
      | true => simp
      | false =>
        have hw := i64_wrap_neg_of_lt v hlt
        simp only [mul_neg_one] at hw
        simp [hw]

/-- Witness for C6: committee of two with bits [true, false] and flat reward
10; the emitted rows are (index of member 0, +10) and (index of member 1,
-10), matching the worked example of the claim. -/
theorem sync_reward_sign_matches_bit_witness :
    (sync_entries ctx_c6).get? 0 = some ⟨5, 10⟩ ∧
      (sync_entries ctx_c6).get? 1 = some ⟨9, -10⟩ ∧
      (⟨5, (10 : Int)⟩ : SyncCommitteeAttestationReward).reward =
        (if true then (10 : Int) else -(10 : Int)) ∧
      (⟨9, (-10 : Int)⟩ : SyncCommitteeAttestationReward).reward =
        (if false then (10 : Int) else -(10 : Int)) :=
  ⟨by decide, by decide,
    sync_reward_sign_matches_bit ctx_c6 [41, 42] [true, false] 10 3 0 41 true
      ⟨5, 10⟩ rfl rfl rfl rfl (by decide) (by decide) (by decide),
    sync_reward_sign_matches_bit ctx_c6 [41, 42] [true, false] 10 3 1 42 false
      ⟨9, -10⟩ rfl rfl rfl rfl (by decide) (by decide) (by decide)⟩

/-- Claim C9: filtering by a nonempty set of validator indices returns
exactly the rows of the unfiltered result whose validator index lies in the
set, in the same relative order: the filtered row list is List.filter of the
unfiltered row list. -/
theorem validator_index_filter_subsequence (ctx : SyncCtx) (idxs : List Nat)
    (h1 : idxs ≠ [])
    (h2 : ctx.validators = idxs.map ValidatorId.index) :
    sync_entries ctx =
      (sync_entries { ctx with validators := [] }).filter
        (fun e => idxs.any (fun j => e.validator_index == j)) := by
  cases hb : ctx.sync_aggregate_bits with
  | none => simp [sync_entries, compute_sync_committee_rewards, hb]
  | some bits =>
  cases hr : ctx.compute_sync_aggregate_rewards with
  | none => simp [sync_entries, compute_sync_committee_rewards, hb, hr]
  | some vp =>
  cases hp : ctx.current_sync_committee_pubkeys with
  | none => simp [sync_entries, compute_sync_committee_rewards, hb, hr, hp]
  | some pks =>
  by_cases hemp : pks.isEmpty
  · simp [sync_entries, compute_sync_committee_rewards, hb, hr, hp, hemp]
  · cases hres : resolve_triples ctx.get_validator_index (pks.zip bits) with
    | error e =>
      simp [sync_entries, compute_sync_committee_rewards, hb, hr, hp, hemp,
        hres]
    | ok ts =>
      have hL : sync_entries ctx =
          (ts.filter (sync_filter_pred ctx.validators)).map
            (sync_reward_row vp.1) := by
        simp [sync_entries, compute_sync_committee_rewards, hb, hr, hp, hemp,
          hres]
      have hfilt : ts.filter (sync_filter_pred []) = ts :=
        list_filter_all _ ts (fun t _ => by simp [sync_filter_pred])
      have hR : sync_entries
          { sync_aggregate_bits := some bits
            compute_sync_aggregate_rewards := some vp
            current_sync_committee_pubkeys := some pks
            get_validator_index := ctx.get_validator_index
            validators := [] } = ts.map (sync_reward_row vp.1) := by
        simp [sync_entries, compute_sync_committee_rewards, hemp, hres, hfilt]
      rw [hL, hR, list_map_filter (sync_reward_row vp.1)
        (fun e => idxs.any (fun j => e.validator_index == j)) ts]
      congr 1
      apply list_filter_congr
      intro t _
      rw [h2]
      cases idxs with
      | nil => exact absurd rfl h1
      | cons j0 js =>
        simp [sync_filter_pred, list_any_map, sync_reward_row]

/-- Witness for C9: committee of two (indices 5 and 7, both bits set), filter
by the index set [7]; the filtered result is exactly the matching row of the
unfiltered result, in order. -/
theorem validator_index_filter_subsequence_witness :
    sync_entries ctx_c9 =
      (sync_entries { ctx_c9 with validators := [] }).filter
        (fun e => [7].any (fun j => e.validator_index == j)) ∧
      sync_entries ctx_c9 = [⟨7, 10⟩] :=
  ⟨validator_index_filter_subsequence ctx_c9 [7] (by decide) rfl, by decide⟩

/-- Claim C1 (divergence witness): in ctx_c1 validator 7 is eligible but is a
member of no unslashed-participating set, so by the specified rule each of
its three per-flag rewards would be the negative penalty from its own base
reward; the code instead reports the positive ideal-table value 448 at
(flag 0, bucket 0), because the membership check, flag index, bucket, weight
and base reward it uses are the stale zero-valued outer bindings of
lines 44-47. -/
theorem eligible_validator_reward_ignores_membership :
    (compute_attestation_rewards ctx_c1).map (fun r => r.total_rewards) =
      Except.ok [⟨7, 448, 0, 0, 0⟩] ∧
    (ideal_rewards_hashmap ctx_c1).map
      (fun t => (table_get? t (0, 0)).getD 0) = Except.ok 448 ∧
    (ctx_c1.get_unslashed_participating_indices 0).map
      (fun s => s.contains 7) = some false ∧
    (ctx_c1.get_unslashed_participating_indices 1).map
      (fun s => s.contains 7) = some false ∧
    (ctx_c1.get_unslashed_participating_indices 2).map
      (fun s => s.contains 7) = some false :=
  ⟨rfl, rfl, rfl, rfl, rfl⟩

/-- Claim C4 (divergence witness): in ctx_c4 validator 3 is eligible and a
member of all three unslashed-participating sets, so by the specified rule
its total reward would be the sum of the three ideal-table lookups at its own
bucket (here bucket 2: 1344 + 2496 + 1344 = 5184); the code instead reports
448, the single ideal-table value at (flag 0, bucket 0), in the head field
with target and source hardcoded to 0. -/
theorem total_reward_not_sum_of_ideal_lookups :
    (compute_attestation_rewards ctx_c4).map (fun r => r.total_rewards) =
      Except.ok [⟨3, 448, 0, 0, 0⟩] ∧
    (ideal_rewards_hashmap ctx_c4).map (fun t =>
      (table_get? t (0, 2)).getD 0 + (table_get? t (1, 2)).getD 0 +
        (table_get? t (2, 2)).getD 0) = Except.ok 5184 ∧
    (448 : Int) ≠ (5184 : Int) :=
  ⟨rfl, rfl, by decide⟩

/-- Claim C2 (divergence witness): in ctx_c2 the index lookup for the only
committee pubkey fails, yet the request succeeds and reports a row for
validator index 0 with the full reward, instead of the hard error the claim
requires: the code replaces a failed lookup by Some(0) at line 73. -/
theorem unknown_sync_pubkey_defaulted_to_index_zero :
    ctx_c2.get_validator_index 11 = none ∧
    (compute_sync_committee_rewards ctx_c2).map (fun r => r.data) =
      Except.ok (some [⟨0, 10⟩]) :=
  ⟨rfl, rfl⟩

/-- Claim C3 (divergence witness): in ctx_c3 the committee has two public
keys but the sync aggregate has a single bit; the request still succeeds and
emits one row (the zip of line 69 silently truncates to the shorter
sequence), instead of the hard error the claim requires. -/
theorem committee_bits_length_mismatch_truncated :
    ctx_c3.current_sync_committee_pubkeys.map List.length = some 2 ∧
    ctx_c3.sync_aggregate_bits.map List.length = some 1 ∧
    (compute_sync_committee_rewards ctx_c3).map (fun r => r.data) =
      Except.ok (some [⟨5, 10⟩]) :=
  ⟨rfl, rfl, rfl⟩
